import Mathlib

/-!
Verification of the soul-brews-cat-lab-webhook-relay worker.

This file shallowly embeds the worker's logic in Lean 4:

* the HMAC-SHA256 signed-URL token codec (`generateWebhookToken`,
  `verifyWebhookToken` from `src/worker.ts`), built on executable
  SHA-256, HMAC and base64url definitions over byte lists
  (`TextEncoder().encode` is modelled by an explicit UTF-8 encoder);
* the data model (`Hit`, `ForwardRule`, `Alias`) from `src/db/schema.ts`,
  with a `Db` record standing for the D1 database. ISO-8601 UTC timestamp
  strings of the fixed `toISOString()` format compare lexicographically
  exactly as their epoch values compare, so timestamps are modelled as
  epoch milliseconds (`Int`);
* the receive pipeline `POST /w/:id/:token` (`handleRawWebhook`), the
  forward executor (`executeForward` from `src/forward.ts`), the hits
  query (`apiHits`), the retention sweep (`purgeOldHits`), session auth
  (`checkAuth`) and the forward-rule upsert (`upsertForwardRule`).

JavaScript strings are modelled as Lean `String`s; `.length` and
`.slice` count UTF-16 code units in JS and characters here, which agree
on all basic-multilingual-plane text without surrogate pairs (every
concrete input used below). Network effects (`fetch`) are modelled by an
explicit `FetchOutcome` argument and by returning the list of outbound
requests the code would issue.
-/

/-! ## 32-bit word helpers -/

/-- 2^32, the modulus for 32-bit arithmetic. -/
def M32 : Nat := 4294967296

/-- Addition modulo 2^32. -/
def add32 (a b : Nat) : Nat := (a + b) % M32

/-- Right rotation of a 32-bit word by `n` bits. -/
def rotr32 (n x : Nat) : Nat := ((x >>> n) ||| (x <<< (32 - n))) % M32

/-- Bitwise complement of a 32-bit word. -/
def not32 (x : Nat) : Nat := x ^^^ (M32 - 1)

/-! ## SHA-256 (FIPS 180-4), over byte lists -/

/-- The 64 SHA-256 round constants, in decimal. -/
def shaK : List Nat :=
  [1116352408, 1899447441, 3049323471, 3921009573, 961987163, 1508970993,
   2453635748, 2870763221, 3624381080, 310598401, 607225278, 1426881987,
   1925078388, 2162078206, 2614888103, 3248222580, 3835390401, 4022224774,
   264347078, 604807628, 770255983, 1249150122, 1555081692, 1996064986,
   2554220882, 2821834349, 2952996808, 3210313671, 3336571891, 3584528711,
   113926993, 338241895, 666307205, 773529912, 1294757372, 1396182291,
   1695183700, 1986661051, 2177026350, 2456956037, 2730485921, 2820302411,
   3259730800, 3345764771, 3516065817, 3600352804, 4094571909, 275423344,
   430227734, 506948616, 659060556, 883997877, 958139571, 1322822218,
   1537002063, 1747873779, 1955562222, 2024104815, 2227730452, 2361852424,
   2428436474, 2756734187, 3204031479, 3329325298]

/-- The SHA-256 initial hash value, in decimal. -/
def shaH0 : List Nat :=
  [1779033703, 3144134277, 1013904242, 2773480762,
   1359893119, 2600822924, 528734635, 1541459225]

/-- Big-endian bytes of a 64-bit length field. -/
def bytes64BE (n : Nat) : List Nat :=
  [(n >>> 56) % 256, (n >>> 48) % 256, (n >>> 40) % 256, (n >>> 32) % 256,
   (n >>> 24) % 256, (n >>> 16) % 256, (n >>> 8) % 256, n % 256]

/-- Big-endian bytes of a 32-bit word. -/
def bytes32BE (n : Nat) : List Nat :=
  [(n >>> 24) % 256, (n >>> 16) % 256, (n >>> 8) % 256, n % 256]

/-- SHA-256 padding: append 0x80, zeros, then the 64-bit bit length. -/
def shaPad (msg : List Nat) : List Nat :=
  let L := msg.length
  let zeros := (119 - (L % 64)) % 64
  msg ++ (128 :: List.replicate zeros 0) ++ bytes64BE (L * 8)

/-- Split a byte list into 64-byte blocks (`fuel` bounds the recursion). -/
def chunks64 (fuel : Nat) (l : List Nat) : List (List Nat) :=
  match fuel with
  | 0 => []
  | f + 1 =>
    match l with
    | [] => []
    | x :: xs => (x :: xs).take 64 :: chunks64 f ((x :: xs).drop 64)

/-- Pack bytes into big-endian 32-bit words. -/
def toWords : List Nat → List Nat
  | b0 :: b1 :: b2 :: b3 :: rest => (((b0 * 256 + b1) * 256 + b2) * 256 + b3) :: toWords rest
  | _ => []

/-- Message-schedule sigma-0. -/
def ssig0 (x : Nat) : Nat := (rotr32 7 x) ^^^ (rotr32 18 x) ^^^ (x >>> 3)

/-- Message-schedule sigma-1. -/
def ssig1 (x : Nat) : Nat := (rotr32 17 x) ^^^ (rotr32 19 x) ^^^ (x >>> 10)

/-- Extend the 16 block words to 64 schedule words (`fuel` = 48). -/
def extendSchedule (w : List Nat) : Nat → List Nat
  | 0 => w
  | f + 1 =>
    let n := w.length
    let wi := add32 (add32 (w.getD (n - 16) 0) (ssig0 (w.getD (n - 15) 0)))
                    (add32 (w.getD (n - 7) 0) (ssig1 (w.getD (n - 2) 0)))
    extendSchedule (w ++ [wi]) f

/-- One SHA-256 compression round on the eight-word state. -/
def shaRound (st : List Nat) (wk : Nat × Nat) : List Nat :=
  match st with
  | [a, b, c, d, e, f, g, h] =>
    let S1 := (rotr32 6 e) ^^^ (rotr32 11 e) ^^^ (rotr32 25 e)
    let ch := (e &&& f) ^^^ ((not32 e) &&& g)
    let t1 := add32 (add32 (add32 h S1) (add32 ch wk.2)) wk.1
    let S0 := (rotr32 2 a) ^^^ (rotr32 13 a) ^^^ (rotr32 22 a)
    let maj := (a &&& b) ^^^ (a &&& c) ^^^ (b &&& c)
    let t2 := add32 S0 maj
    [add32 t1 t2, a, b, c, add32 d t1, e, f, g]
  | other => other

/-- Compress one 64-byte block into the running hash state. -/
def shaBlock (H : List Nat) (block : List Nat) : List Nat :=
  let w := extendSchedule (toWords block) 48
  let st := (w.zip shaK).foldl shaRound H
  List.zipWith add32 H st

/-- SHA-256 of a byte list, as a 32-byte list. -/
def sha256 (msg : List Nat) : List Nat :=
  let padded := shaPad msg
  let H := (chunks64 padded.length padded).foldl shaBlock shaH0
  H.foldr (fun wd acc => bytes32BE wd ++ acc) []

/-! ## HMAC-SHA256 (RFC 2104) -/

/-- HMAC-SHA256 with byte-list key and message, as WebCrypto computes it. -/
def hmacSha256 (key msg : List Nat) : List Nat :=
  let k0 := if 64 < key.length then sha256 key else key
  let k := k0 ++ List.replicate (64 - k0.length) 0
  let ipad := k.map (fun b => b ^^^ 0x36)
  let opad := k.map (fun b => b ^^^ 0x5c)
  sha256 (opad ++ sha256 (ipad ++ msg))

/-! ## UTF-8 encoding (TextEncoder) and base64 (btoa) -/

/-- UTF-8 bytes of one character. -/
def utf8Char (c : Char) : List Nat :=
  let n := c.toNat
  if n < 128 then [n]
  else if n < 2048 then [192 ||| (n >>> 6), 128 ||| (n &&& 63)]
  else if n < 65536 then
    [224 ||| (n >>> 12), 128 ||| ((n >>> 6) &&& 63), 128 ||| (n &&& 63)]
  else
    [240 ||| (n >>> 18), 128 ||| ((n >>> 12) &&& 63), 128 ||| ((n >>> 6) &&& 63), 128 ||| (n &&& 63)]

/-- UTF-8 bytes of a string, as `TextEncoder().encode` produces. -/
def utf8 (s : String) : List Nat := s.data.foldr (fun c acc => utf8Char c ++ acc) []

/-- The standard base64 alphabet. -/
def b64Alphabet : List Char :=
  "ABCDEFGHIJKLMNOPQRSTUVWXYZabcdefghijklmnopqrstuvwxyz0123456789+/".data

/-- The base64 digit for a 6-bit value. -/
def b64digit (n : Nat) : Char := b64Alphabet.getD n 'A'

/-- Standard base64 encoding with `=` padding, as `btoa` produces. -/
def b64encode : List Nat → List Char
  | b0 :: b1 :: b2 :: rest =>
    b64digit (b0 >>> 2) :: b64digit (((b0 &&& 3) <<< 4) ||| (b1 >>> 4)) ::
    b64digit (((b1 &&& 15) <<< 2) ||| (b2 >>> 6)) :: b64digit (b2 &&& 63) :: b64encode rest
  | [b0, b1] =>
    [b64digit (b0 >>> 2), b64digit (((b0 &&& 3) <<< 4) ||| (b1 >>> 4)),
     b64digit ((b1 &&& 15) <<< 2), '=']
  | [b0] => [b64digit (b0 >>> 2), b64digit ((b0 &&& 3) <<< 4), '=', '=']
  | [] => []

/-! ## Token codec (`src/worker.ts` lines 24-42) -/

/-- The `+` to `-` and `/` to `_` character substitution of the source. -/
def b64urlSubst (c : Char) : Char := if c = '+' then '-' else if c = '/' then '_' else c

/-- Strip the trailing run of `=` characters (the `/=+$/` replacement). -/
def stripTrailingPad (l : List Char) : List Char := (l.reverse.dropWhile (fun c => c = '=')).reverse

/-- `generateWebhookToken` from `src/worker.ts`: base64url of
HMAC-SHA256 with key the secret and message the endpoint id, with
padding stripped. -/
def generateWebhookToken (id secret : String) : String :=
  String.mk (stripTrailingPad ((b64encode (hmacSha256 (utf8 secret) (utf8 id))).map b64urlSubst))

/-- `verifyWebhookToken` from `src/worker.ts`: recompute and compare. -/
def verifyWebhookToken (id token secret : String) : Bool :=
  token == generateWebhookToken id secret

/-! ## Data model (`src/db/schema.ts`), with a `Db` record for the D1 store -/

/-- A row of `webhook_hits`. -/
structure Hit where
  id : Nat
  endpoint : String
  suffix : Option String := none
  received_at : Int
  response_ms : Nat
  body_length : Nat
  body : Option String := none
  forward_status : Option Nat := none
  forward_ms : Option Nat := none
  forward_error : Option String := none
deriving Repr, DecidableEq

/-- A row of `forward_rules`. -/
structure ForwardRule where
  endpoint : String
  forward_url : String
  enabled : Bool
  persist : Bool
  created_at : Int
  updated_at : Int
deriving Repr, DecidableEq

/-- A row of `aliases`. -/
structure Alias where
  id : Nat
  value : String
  label : String
  created_at : Int
deriving Repr, DecidableEq

/-- The database state: the three tables plus the next autoincrement id. -/
structure Db where
  hits : List Hit
  rules : List ForwardRule
  aliases : List Alias
  nextHitId : Nat
deriving Repr, DecidableEq

/-- `getForwardRule` from `src/forward.ts`: first rule whose key matches. -/
def getForwardRule (db : Db) (endpoint : String) : Option ForwardRule :=
  db.rules.find? (fun r => r.endpoint == endpoint)

/-- `recordHit` (`stats.ts`): insert a row, returning `last_row_id`. -/
def recordHit (db : Db) (endpoint : String) (sfx : Option String) (received_at : Int)
    (response_ms : Nat) (body_length : Nat) (body : Option String) : Nat × Db :=
  let i := db.nextHitId
  (i, { db with
        hits := db.hits ++ [{ id := i, endpoint := endpoint, suffix := sfx,
                              received_at := received_at, response_ms := response_ms,
                              body_length := body_length, body := body }],
        nextHitId := i + 1 })

/-! ## Receive pipeline (`src/worker.ts`, `POST /w/:id/:token`) -/

/-- The JSON response of the raw receive route: a 401 auth error, or the
200 envelope `{ok: true, endpoint, received_at, response_ms}`. -/
inductive RawResponse where
  | authError (error : String)
  | ok (endpoint : String) (received_at : Int) (response_ms : Nat)
deriving Repr, DecidableEq

/-- The HTTP status of a `RawResponse`. -/
def respStatus : RawResponse → Nat
  | .authError _ => 401
  | .ok _ _ _ => 200

/-- The inbound headers the pipeline consults. -/
structure ReqHeaders where
  contentType : Option String := none
  xGithubEvent : Option String := none
deriving Repr, DecidableEq

/-- A forward scheduled via `waitUntil(executeForward(...))`. -/
structure ForwardJob where
  hitId : Option Nat
  url : String
  body : String
  headers : ReqHeaders
deriving Repr, DecidableEq

/-- The observable result of the raw receive handler: the response, whether
the body stream was read, the persisted hit id, the scheduled forward, and
the database after the handler ran. -/
structure RecvOut where
  resp : RawResponse
  bodyRead : Bool
  hitId : Option Nat
  fwd : Option ForwardJob
  db : Db
deriving Repr, DecidableEq

/-- The `POST /w/:id/:token` handler from `src/worker.ts`. `received_at`
and `response_ms` stand for the wall-clock values the handler samples;
the body is passed in but `bodyRead` records whether the code reached
`await c.req.text()`. -/
def handleRawWebhook (apiToken : Option String) (id token body : String)
    (received_at : Int) (response_ms : Nat) (hdrs : ReqHeaders) (db : Db) : RecvOut :=
  let authFailed := match apiToken with
    | some secret => !(verifyWebhookToken id token secret)
    | none => false
  if authFailed then
    { resp := .authError "Invalid webhook token", bodyRead := false,
      hitId := none, fwd := none, db := db }
  else
    let endpoint := id
    let rule := getForwardRule db endpoint
    let persistOff := match rule with
      | some r => r.persist == false
      | none => false
    let rec1 :=
      if persistOff then ((none : Option Nat), db)
      else
        let (i, db') := recordHit db endpoint none received_at response_ms
                          body.length (some (String.mk (body.data.take 4096)))
        (some i, db')
    let fwd := match rule with
      | some r =>
        if r.enabled && r.forward_url != "" then
          some { hitId := rec1.1, url := r.forward_url, body := body, headers := hdrs }
        else none
      | none => none
    { resp := .ok endpoint received_at response_ms, bodyRead := true,
      hitId := rec1.1, fwd := fwd, db := rec1.2 }

/-! ## Forward executor (`src/forward.ts`) -/

/-- The result of the single `fetch` call: an HTTP status, or a thrown
transport error whose `message` may be absent. -/
inductive FetchOutcome where
  | success (status : Nat)
  | failure (msg : Option String)
deriving Repr, DecidableEq

/-- One outbound HTTP request as `executeForward` issues it. -/
structure OutboundRequest where
  url : String
  method : String
  contentType : String
  userAgent : String
  xGithubEvent : Option String
  body : String
  timeoutMs : Nat
deriving Repr, DecidableEq

/-- The recorded forward outcome columns. -/
structure ForwardOutcome where
  forward_status : Nat
  forward_ms : Nat
  forward_error : Option String
deriving Repr, DecidableEq

/-- `executeForward` from `src/forward.ts`. The `fetch` effect is the
`outcome` argument and `elapsedMs` the measured duration; the function
returns the updated database, the recorded outcome, and the list of
outbound requests performed. -/
def executeForward (db : Db) (hitId : Option Nat) (forwardUrl body : String)
    (original : ReqHeaders) (outcome : FetchOutcome) (elapsedMs : Nat) :
    Db × ForwardOutcome × List OutboundRequest :=
  let ct := match original.contentType with
    | some s => if s == "" then "application/json" else s
    | none => "application/json"
  let ghe := match original.xGithubEvent with
    | some s => if s == "" then none else some s
    | none => none
  let req : OutboundRequest :=
    { url := forwardUrl, method := "POST", contentType := ct,
      userAgent := "webhook-relay/0.5.0", xGithubEvent := ghe,
      body := body, timeoutMs := 10000 }
  let rec1 : ForwardOutcome := match outcome with
    | .success s => { forward_status := s, forward_ms := elapsedMs, forward_error := none }
    | .failure m => { forward_status := 0, forward_ms := elapsedMs,
                      forward_error := some (m.getD "Unknown fetch error") }
  let db' := match hitId with
    | some i =>
      { db with hits := db.hits.map (fun h =>
          if h.id == i then
            { h with forward_status := some rec1.forward_status,
                     forward_ms := some rec1.forward_ms,
                     forward_error := rec1.forward_error }
          else h) }
    | none => db
  (db', rec1, [req])

/-! ## Hits query (`GET /api/hits`, `src/worker.ts` lines 381-414)

The route builds `fromISO` from `dateParam + "T00:00:00+07:00"` and
`toISO` from `dateParam + "T23:59:59.999+07:00"`, then selects rows with
`received_at >= fromISO` and `received_at < toISO`, ordered by
`received_at` descending, limited to 500. A calendar day of the fixed
UTC+7 offset is identified here by its day index `k`, so that the day's
local midnight is at epoch `k * 86400000 - 25200000` ms. -/

/-- The `GMT7_OFFSET_MS` constant (7 hours in milliseconds). -/
def GMT7_OFFSET_MS : Int := 25200000

/-- Epoch ms of `T00:00:00+07:00` on offset-local day `k` (the `fromISO` bound). -/
def dayFromMs (k : Int) : Int := k * 86400000 - GMT7_OFFSET_MS

/-- Epoch ms of `T23:59:59.999+07:00` on offset-local day `k` (the `toISO` bound). -/
def dayToMs (k : Int) : Int := dayFromMs k + 86399999

/-- The row filter of the query: `gte(received_at, fromISO)`,
`lt(received_at, toISO)`, and the optional endpoint equality. -/
def hitInWindow (k : Int) (ep : Option String) (h : Hit) : Bool :=
  decide (dayFromMs k ≤ h.received_at) && decide (h.received_at < dayToMs k) &&
    (match ep with
     | some e => h.endpoint == e
     | none => true)

/-- The `ORDER BY received_at DESC` comparison. -/
def hitDescOrder (a b : Hit) : Prop := b.received_at ≤ a.received_at

instance : DecidableRel hitDescOrder :=
  fun a b => inferInstanceAs (Decidable (b.received_at ≤ a.received_at))

instance : IsTotal Hit hitDescOrder :=
  ⟨fun a b => (le_total b.received_at a.received_at).imp id id⟩

instance : IsTrans Hit hitDescOrder :=
  ⟨fun _ _ _ hab hbc => le_trans hbc hab⟩

/-- The `GET /api/hits` result rows: filter, sort newest-first, limit 500. -/
def apiHits (k : Int) (ep : Option String) (db : Db) : List Hit :=
  ((db.hits.filter (hitInWindow k ep)).insertionSort hitDescOrder).take 500

/-! ## Retention sweep (`purgeOldHits`, `stats.ts`) -/

/-- 7 days in milliseconds, the retention cutoff distance. -/
def SEVEN_DAYS_MS : Int := 604800000

/-- `purgeOldHits`: delete rows with `received_at < now - 7d`, returning
the number of deleted rows (`meta.changes`) and the new state. -/
def purgeOldHits (now : Int) (db : Db) : Nat × Db :=
  let cutoff := now - SEVEN_DAYS_MS
  (db.hits.countP (fun h => decide (h.received_at < cutoff)),
   { db with hits := db.hits.filter (fun h => !decide (h.received_at < cutoff)) })

/-! ## Session auth (`getCookie` / `checkAuth`, `src/worker.ts` lines 44-60) -/

/-- `getCookie`: split the cookie header on `;`, trim each part, split on
`=`, and return the re-joined remainder of the first matching name. -/
def getCookie (header name : String) : Option String :=
  (header.splitOn ";").findSome? (fun part =>
    match (part.trim).splitOn "=" with
    | [] => none
    | k :: rest => if k == name then some (String.intercalate "=" rest) else none)

/-- `checkAuth`: true when no `API_TOKEN` is configured, or on a matching
bearer header, or on a matching `api_token` cookie. -/
def checkAuth (apiToken : Option String) (authHeader : Option String)
    (cookieHeader : Option String) : Bool :=
  match apiToken with
  | none => true
  | some tok =>
    if authHeader == some ("Bearer " ++ tok) then true
    else if getCookie (cookieHeader.getD "") "api_token" == some tok then true
    else false

/-! ## Forward-rule upsert (`PUT /api/forward-rules/:endpoint`,
`src/worker.ts` lines 219-245, and the MCP `set_forward_rule` tool,
which runs the identical insert-on-conflict-update statement) -/

/-- The upsert: insert a new rule, or on an endpoint-key conflict update
`forward_url`, `enabled`, `persist` and `updated_at` only, with omitted
`enabled`/`persist` defaulting to `true` in both branches. -/
def upsertForwardRule (endpoint forward_url : String) (enabledArg persistArg : Option Bool)
    (now : Int) (db : Db) : Db :=
  if db.rules.any (fun r => r.endpoint == endpoint) then
    { db with rules := db.rules.map (fun r =>
        if r.endpoint == endpoint then
          { r with forward_url := forward_url,
                   enabled := enabledArg.getD true,
                   persist := persistArg.getD true,
                   updated_at := now }
        else r) }
  else
    { db with rules := db.rules ++
        [{ endpoint := endpoint, forward_url := forward_url,
           enabled := enabledArg.getD true, persist := persistArg.getD true,
           created_at := now, updated_at := now }] }

/-! ## Helper lemmas -/

/-- Rows kept by a filter plus rows counted by its negation make the whole table. -/
theorem length_filter_not_add_countP (p : Hit → Bool) (l : List Hit) :
    (l.filter (fun a => !p a)).length + l.countP p = l.length := by
  induction l with
  | nil => rfl
  | cons x xs ih =>
    by_cases hx : p x = true <;>
      simp [List.filter_cons, List.countP_cons, hx] <;> omega

/-- No row surviving the negated filter still matches the predicate. -/
theorem countP_filter_not (p : Hit → Bool) (l : List Hit) :
    (l.filter (fun a => !p a)).countP p = 0 := by
  induction l with
  | nil => rfl
  | cons x xs ih =>
    by_cases hx : p x = true <;> simp [List.filter_cons, List.countP_cons, hx, ih]

/-- Mapping a key-preserving update over a keyed list moves `find?` through it. -/
theorem find?_rules_map_update (l : List ForwardRule) (e : String)
    (f : ForwardRule → ForwardRule) (hf : ∀ x, (f x).endpoint = x.endpoint)
    (r : ForwardRule) (h : l.find? (fun x => x.endpoint == e) = some r) :
    (l.map (fun x => if x.endpoint == e then f x else x)).find?
        (fun x => x.endpoint == e) = some (f r) := by
  induction l with
  | nil => simp at h
  | cons x xs ih =>
    by_cases hx : (x.endpoint == e) = true
    · rw [@List.find?_cons_of_pos ForwardRule (fun y => y.endpoint == e) x xs hx] at h
      injection h with h'
      subst h'
      have hfx : ((fun y : ForwardRule => y.endpoint == e) (f x)) = true := by
        show ((f x).endpoint == e) = true
        rw [hf x]; exact hx
      rw [List.map_cons, if_pos hx,
        @List.find?_cons_of_pos ForwardRule (fun y => y.endpoint == e) (f x) _ hfx]
    · have hnx : ¬ ((fun y : ForwardRule => y.endpoint == e) x = true) := hx
      rw [@List.find?_cons_of_neg ForwardRule (fun y => y.endpoint == e) x xs hnx] at h
      rw [List.map_cons, if_neg hx,
        @List.find?_cons_of_neg ForwardRule (fun y => y.endpoint == e) x _ hnx]
      exact ih h

/-- C1: for every endpoint id and secret, a token issued by
`generateWebhookToken` verifies, and any other token string is rejected,
because verification recomputes the token and compares exactly. -/
theorem token_roundtrip_and_exact_compare (id secret t : String)
    (h : t ≠ generateWebhookToken id secret) :
    verifyWebhookToken id (generateWebhookToken id secret) secret = true ∧
    verifyWebhookToken id t secret = false := by
  refine ⟨?_, ?_⟩
  · simp [verifyWebhookToken]
  · simp [verifyWebhookToken, h]

set_option maxRecDepth 1000000 in
/-- Witness for C1, at a concrete pair and a single-character mutation of
the issued token (leading `Z` lowered to `z`). -/
theorem token_roundtrip_and_exact_compare_witness :
    verifyWebhookToken "ping" (generateWebhookToken "ping" "secret") "secret" = true ∧
    verifyWebhookToken "ping" "zzGyJuf96OHjpM562tpxr7Ws5jS_cX1l9-vrnPK3_vE" "secret" = false :=
  token_roundtrip_and_exact_compare "ping" "secret"
    "zzGyJuf96OHjpM562tpxr7Ws5jS_cX1l9-vrnPK3_vE" (by decide)

/-- C9: with no `API_TOKEN` configured the system fails open: `checkAuth`
accepts every request and the raw webhook route accepts any path token,
answering the 200 envelope. -/
theorem no_secret_fails_open (authHeader ck : Option String) (id token body : String)
    (t : Int) (ms : Nat) (hdrs : ReqHeaders) (db : Db) :
    checkAuth none authHeader ck = true ∧
    (handleRawWebhook none id token body t ms hdrs db).resp = .ok id t ms ∧
    respStatus (handleRawWebhook none id token body t ms hdrs db).resp = 200 := by
  refine ⟨rfl, ?_, ?_⟩ <;> simp [handleRawWebhook, respStatus]

/-- C6: `purgeOldHits` keeps exactly the hits at least as recent as
`now - 7d`, returns the number of deleted rows, touches no rules or
aliases, and a second run at the same time deletes nothing. -/
theorem purge_exact_and_idempotent (now : Int) (db : Db) :
    (∀ h : Hit, h ∈ (purgeOldHits now db).2.hits ↔
       h ∈ db.hits ∧ now - SEVEN_DAYS_MS ≤ h.received_at) ∧
    (purgeOldHits now db).1 = db.hits.length - (purgeOldHits now db).2.hits.length ∧
    (purgeOldHits now db).2.rules = db.rules ∧
    (purgeOldHits now db).2.aliases = db.aliases ∧
    (purgeOldHits now (purgeOldHits now db).2).1 = 0 ∧
    (purgeOldHits now (purgeOldHits now db).2).2 = (purgeOldHits now db).2 := by
  refine ⟨?_, ?_, rfl, rfl, ?_, ?_⟩
  · intro h
    simp [purgeOldHits, List.mem_filter, not_lt]
  · have := length_filter_not_add_countP
      (fun h => decide (h.received_at < now - SEVEN_DAYS_MS)) db.hits
    simp only [purgeOldHits]
    omega
  · simp only [purgeOldHits]
    exact countP_filter_not
      (fun h => decide (h.received_at < now - SEVEN_DAYS_MS)) db.hits
  · have hff : ∀ (p : Hit → Bool) (l : List Hit), (l.filter p).filter p = l.filter p := by
      intro p l
      rw [List.filter_filter]
      simp
    simp only [purgeOldHits]
    congr 1
    exact hff _ db.hits

/-- C10: an upsert whose body omits `enabled` and `persist` overwrites
both flags with `true` on an existing rule, keeps only `created_at`, and
stamps `updated_at`; the PUT route and the MCP `set_forward_rule` tool
run this same statement. -/
theorem upsert_defaults_overwrite (e url : String) (now : Int) (db : Db) (r : ForwardRule)
    (hr : getForwardRule db e = some r) :
    getForwardRule (upsertForwardRule e url none none now db) e =
      some { endpoint := r.endpoint, forward_url := url, enabled := true,
             persist := true, created_at := r.created_at, updated_at := now } := by
  have hmem := List.mem_of_find?_eq_some hr
  have hpred := List.find?_some hr
  have hany : db.rules.any (fun x => x.endpoint == e) = true :=
    List.any_eq_true.mpr ⟨r, hmem, hpred⟩
  unfold upsertForwardRule getForwardRule
  rw [if_pos hany]
  exact find?_rules_map_update db.rules e
    (fun x => { x with forward_url := url, enabled := true, persist := true,
                       updated_at := now })
    (fun _ => rfl) r hr

/-- Witness for C10: a stored rule with both flags `false` comes back with
both flags `true` after an upsert that omits them. -/
theorem upsert_defaults_overwrite_witness :
    getForwardRule (upsertForwardRule "ping" "http://new" none none 9
        ⟨[], [⟨"ping", "http://old", false, false, 3, 4⟩], [], 1⟩) "ping" =
      some ⟨"ping", "http://new", true, true, 3, 9⟩ :=
  upsert_defaults_overwrite "ping" "http://new" 9
    ⟨[], [⟨"ping", "http://old", false, false, 3, 4⟩], [], 1⟩
    ⟨"ping", "http://old", false, false, 3, 4⟩ rfl

/-- C3: when the endpoint's rule has `persist = false`, the raw receive
handler writes no hit (its id is null and the table is unchanged),
whatever the `enabled` flag; and the forward executor, given a null hit
id, leaves the database untouched. -/
theorem persist_false_never_writes (a : Option String) (id token body : String) (t : Int)
    (ms : Nat) (hdrs : ReqHeaders) (db : Db) (r : ForwardRule)
    (hr : getForwardRule db id = some r) (hp : r.persist = false) :
    (handleRawWebhook a id token body t ms hdrs db).hitId = none ∧
    (handleRawWebhook a id token body t ms hdrs db).db.hits = db.hits ∧
    (∀ (db2 : Db) (url b2 : String) (hd2 : ReqHeaders) (o : FetchOutcome) (e : Nat),
      (executeForward db2 none url b2 hd2 o e).1 = db2) := by
  refine ⟨?_, ?_, fun db2 url b2 hd2 o e => rfl⟩ <;>
    cases hA : (match a with
      | some secret => !(verifyWebhookToken id token secret)
      | none => false) <;>
    simp [handleRawWebhook, hA, hr, hp]

/-- Witness for C3: a concrete database whose rule disables persistence
(but enables forwarding) produces no hit row. -/
theorem persist_false_never_writes_witness :
    (handleRawWebhook none "ping" "t" "{}" 0 1 ⟨none, none⟩
        ⟨[], [⟨"ping", "http://fwd", true, false, 0, 0⟩], [], 5⟩).hitId = none ∧
    (handleRawWebhook none "ping" "t" "{}" 0 1 ⟨none, none⟩
        ⟨[], [⟨"ping", "http://fwd", true, false, 0, 0⟩], [], 5⟩).db.hits = [] :=
  ⟨(persist_false_never_writes none "ping" "t" "{}" 0 1 ⟨none, none⟩
      ⟨[], [⟨"ping", "http://fwd", true, false, 0, 0⟩], [], 5⟩
      ⟨"ping", "http://fwd", true, false, 0, 0⟩ rfl rfl).1,
   (persist_false_never_writes none "ping" "t" "{}" 0 1 ⟨none, none⟩
      ⟨[], [⟨"ping", "http://fwd", true, false, 0, 0⟩], [], 5⟩
      ⟨"ping", "http://fwd", true, false, 0, 0⟩ rfl rfl).2.1⟩

/-- C2: on the raw receive route, a configured secret plus a
non-verifying path token yields the 401 auth error with the body unread,
no hit persisted and no forward scheduled; in every other case the route
answers the 200 envelope `{ok, endpoint, received_at, response_ms}`. -/
theorem raw_auth_rejects_or_envelope (a : Option String) (id token body : String)
    (t : Int) (ms : Nat) (hdrs : ReqHeaders) (db : Db) :
    (∀ s, a = some s → verifyWebhookToken id token s = false →
       handleRawWebhook a id token body t ms hdrs db =
         { resp := .authError "Invalid webhook token", bodyRead := false,
           hitId := none, fwd := none, db := db } ∧
       respStatus (handleRawWebhook a id token body t ms hdrs db).resp = 401) ∧
    ((a = none ∨ ∃ s, a = some s ∧ verifyWebhookToken id token s = true) →
       (handleRawWebhook a id token body t ms hdrs db).resp = .ok id t ms ∧
       respStatus (handleRawWebhook a id token body t ms hdrs db).resp = 200) := by
  constructor
  · intro s hs hv
    subst hs
    refine ⟨?_, ?_⟩ <;> simp [handleRawWebhook, hv, respStatus]
  · rintro (rfl | ⟨s, rfl, hv⟩)
    · exact ⟨rfl, rfl⟩
    · refine ⟨?_, ?_⟩ <;> simp [handleRawWebhook, hv, respStatus]

set_option maxRecDepth 1000000 in
/-- Witness for C2: a wrong token against a configured secret is turned
away before any effect; with no secret the envelope comes back. -/
theorem raw_auth_rejects_or_envelope_witness :
    handleRawWebhook (some "secret") "ping" "bad" "{}" 5 1 ⟨none, none⟩ ⟨[], [], [], 1⟩ =
      { resp := .authError "Invalid webhook token", bodyRead := false,
        hitId := none, fwd := none, db := ⟨[], [], [], 1⟩ } ∧
    (handleRawWebhook none "ping" "any" "{}" 5 1 ⟨none, none⟩ ⟨[], [], [], 1⟩).resp =
      .ok "ping" 5 1 :=
  ⟨((raw_auth_rejects_or_envelope (some "secret") "ping" "bad" "{}" 5 1 ⟨none, none⟩
      ⟨[], [], [], 1⟩).1 "secret" rfl (by decide)).1,
   ((raw_auth_rejects_or_envelope none "ping" "any" "{}" 5 1 ⟨none, none⟩
      ⟨[], [], [], 1⟩).2 (Or.inl rfl)).1⟩

/-- C4: the forward executor issues exactly one POST with the fixed
10-second timeout, records the sentinel status 0 with a non-null error on
transport failure and the HTTP status with no error on success, always
records the elapsed time, and writes the outcome back to the hit row
precisely when a hit id exists. -/
theorem executeForward_single_post (db : Db) (hitId : Option Nat) (url body : String)
    (hd : ReqHeaders) (o : FetchOutcome) (e : Nat) :
    (executeForward db hitId url body hd o e).2.2.length = 1 ∧
    (∀ rq ∈ (executeForward db hitId url body hd o e).2.2,
       rq.url = url ∧ rq.method = "POST" ∧ rq.timeoutMs = 10000 ∧ rq.body = body) ∧
    (executeForward db hitId url body hd o e).2.1.forward_ms = e ∧
    (∀ m, o = .failure m →
       (executeForward db hitId url body hd o e).2.1.forward_status = 0 ∧
       (executeForward db hitId url body hd o e).2.1.forward_error ≠ none) ∧
    (∀ s, o = .success s →
       (executeForward db hitId url body hd o e).2.1.forward_status = s ∧
       (executeForward db hitId url body hd o e).2.1.forward_error = none) ∧
    (hitId = none → (executeForward db hitId url body hd o e).1 = db) ∧
    (∀ i, hitId = some i →
       (executeForward db hitId url body hd o e).1.rules = db.rules ∧
       (executeForward db hitId url body hd o e).1.aliases = db.aliases ∧
       ∀ h ∈ db.hits, h.id = i →
         { h with
             forward_status := some (executeForward db hitId url body hd o e).2.1.forward_status,
             forward_ms := some (executeForward db hitId url body hd o e).2.1.forward_ms,
             forward_error := (executeForward db hitId url body hd o e).2.1.forward_error }
           ∈ (executeForward db hitId url body hd o e).1.hits) := by
  refine ⟨rfl, ?_, ?_, ?_, ?_, ?_, ?_⟩
  · intro rq hrq
    simp only [executeForward, List.mem_singleton] at hrq
    subst hrq
    exact ⟨rfl, rfl, rfl, rfl⟩
  · cases o <;> rfl
  · rintro m rfl
    exact ⟨rfl, by simp [executeForward]⟩
  · rintro s rfl
    exact ⟨rfl, rfl⟩
  · rintro rfl
    rfl
  · rintro i rfl
    refine ⟨rfl, rfl, ?_⟩
    intro h hmem hid
    simp only [executeForward]
    refine List.mem_map.mpr ⟨h, hmem, ?_⟩
    have hbeq : (h.id == i) = true := by simp [hid]
    simp [hbeq]

/-- Witness for C4: a failed forward against a hit row records the
sentinel and the thrown message on that row. -/
theorem executeForward_single_post_witness :
    (executeForward ⟨[{ id := 1, endpoint := "ping", received_at := 0, response_ms := 1, body_length := 2 }], [], [], 2⟩ (some 1) "http://fwd" "{}" ⟨none, none⟩ (.failure (some "boom")) 7).2.1.forward_status = 0 ∧
    (executeForward ⟨[{ id := 1, endpoint := "ping", received_at := 0, response_ms := 1, body_length := 2 }], [], [], 2⟩ (some 1) "http://fwd" "{}" ⟨none, none⟩ (.failure (some "boom")) 7).2.1.forward_error ≠ none ∧
    ({ id := 1, endpoint := "ping", received_at := 0, response_ms := 1, body_length := 2, forward_status := some 0, forward_ms := some 7, forward_error := some "boom" } : Hit) ∈
      (executeForward ⟨[{ id := 1, endpoint := "ping", received_at := 0, response_ms := 1, body_length := 2 }], [], [], 2⟩ (some 1) "http://fwd" "{}" ⟨none, none⟩ (.failure (some "boom")) 7).1.hits := by
  have H := executeForward_single_post
    ⟨[{ id := 1, endpoint := "ping", received_at := 0, response_ms := 1, body_length := 2 }], [], [], 2⟩
    (some 1) "http://fwd" "{}" ⟨none, none⟩ (.failure (some "boom")) 7
  refine ⟨(H.2.2.2.1 (some "boom") rfl).1, (H.2.2.2.1 (some "boom") rfl).2, ?_⟩
  have hm := (H.2.2.2.2.2.2 1 rfl).2.2
    { id := 1, endpoint := "ping", received_at := 0, response_ms := 1, body_length := 2 }
    (by simp) rfl
  simpa using hm

/-- C8: once authenticated, a forward is scheduled exactly when a rule
for the endpoint is enabled with a non-empty `forward_url`; with no rule
the request is persisted and not forwarded; and the 200 envelope is
produced by the handler itself, before and independent of any forward
execution. -/
theorem forward_iff_rule_enabled (a : Option String) (id token body : String) (t : Int)
    (ms : Nat) (hdrs : ReqHeaders) (db : Db)
    (hauth : ∀ s, a = some s → verifyWebhookToken id token s = true) :
    ((handleRawWebhook a id token body t ms hdrs db).fwd ≠ none ↔
       ∃ r, getForwardRule db id = some r ∧ r.enabled = true ∧ r.forward_url ≠ "") ∧
    (getForwardRule db id = none →
       (handleRawWebhook a id token body t ms hdrs db).hitId = some db.nextHitId ∧
       (handleRawWebhook a id token body t ms hdrs db).fwd = none) ∧
    (handleRawWebhook a id token body t ms hdrs db).resp = .ok id t ms := by
  have hskip : handleRawWebhook a id token body t ms hdrs db =
      handleRawWebhook none id token body t ms hdrs db := by
    rcases a with _ | s
    · rfl
    · have hv := hauth s rfl
      simp [handleRawWebhook, hv]
  refine ⟨?_, ?_, ?_⟩
  · rw [hskip]
    cases hr : getForwardRule db id with
    | none => simp [handleRawWebhook, hr]
    | some r =>
      cases he : r.enabled with
      | false => simp [handleRawWebhook, hr, he]
      | true =>
        by_cases hu : r.forward_url = "" <;>
          simp [handleRawWebhook, hr, he, hu]
  · intro hnone
    rw [hskip]
    constructor <;> simp [handleRawWebhook, hnone, recordHit]
  · rw [hskip]
    rfl

/-- Witness for C8: an enabled rule with a target URL schedules a
forward; an endpoint with no rule persists (id from the autoincrement
counter) and schedules nothing. -/
theorem forward_iff_rule_enabled_witness :
    (handleRawWebhook none "ping" "t" "{}" 0 1 ⟨none, none⟩
       ⟨[], [⟨"ping", "http://fwd", true, true, 0, 0⟩], [], 1⟩).fwd ≠ none ∧
    (handleRawWebhook none "nope" "t" "{}" 0 1 ⟨none, none⟩
       ⟨[], [], [], 7⟩).hitId = some 7 ∧
    (handleRawWebhook none "nope" "t" "{}" 0 1 ⟨none, none⟩
       ⟨[], [], [], 7⟩).fwd = none :=
  ⟨(forward_iff_rule_enabled none "ping" "t" "{}" 0 1 ⟨none, none⟩
      ⟨[], [⟨"ping", "http://fwd", true, true, 0, 0⟩], [], 1⟩
      (fun s h => nomatch h)).1.mpr
      ⟨⟨"ping", "http://fwd", true, true, 0, 0⟩, rfl, rfl, by decide⟩,
   ((forward_iff_rule_enabled none "nope" "t" "{}" 0 1 ⟨none, none⟩
      ⟨[], [], [], 7⟩ (fun s h => nomatch h)).2.1 rfl).1,
   ((forward_iff_rule_enabled none "nope" "t" "{}" 0 1 ⟨none, none⟩
      ⟨[], [], [], 7⟩ (fun s h => nomatch h)).2.1 rfl).2⟩

/-- The query row filter unpacked into its arithmetic and endpoint parts. -/
theorem hitInWindow_iff (k : Int) (ep : Option String) (h : Hit) :
    hitInWindow k ep h = true ↔
      dayFromMs k ≤ h.received_at ∧ h.received_at < dayToMs k ∧
      (∀ e, ep = some e → h.endpoint = e) := by
  cases ep with
  | none => simp [hitInWindow]
  | some e =>
    simp only [hitInWindow, Bool.and_eq_true, decide_eq_true_eq, beq_iff_eq,
      Option.some.injEq]
    constructor
    · rintro ⟨⟨h1, h2⟩, h3⟩
      exact ⟨h1, h2, fun e2 he => he ▸ h3⟩
    · rintro ⟨h1, h2, h3⟩
      exact ⟨⟨h1, h2⟩, h3 e rfl⟩

/-- C5 (amended): the hits query returns at most 500 rows, newest first,
and — whenever at most 500 rows match — exactly the hits whose
`received_at` lies in the half-open offset-local window
`[00:00:00.000, 23:59:59.999)` of the requested day (the upper bound is
excluded because the query uses a strict `lt` against the
`23:59:59.999` instant), restricted to the requested endpoint if one was
given. -/
theorem apiHits_window_membership (k : Int) (ep : Option String) (db : Db) :
    (apiHits k ep db).length ≤ 500 ∧
    List.Sorted hitDescOrder (apiHits k ep db) ∧
    ((db.hits.filter (hitInWindow k ep)).length ≤ 500 →
      ∀ h : Hit, h ∈ apiHits k ep db ↔
        h ∈ db.hits ∧ dayFromMs k ≤ h.received_at ∧ h.received_at < dayToMs k ∧
        (∀ e, ep = some e → h.endpoint = e)) := by
  refine ⟨?_, ?_, ?_⟩
  · simp only [apiHits, List.length_take]
    exact min_le_left _ _
  · have hs := List.sorted_insertionSort hitDescOrder (db.hits.filter (hitInWindow k ep))
    exact List.Pairwise.sublist (List.take_sublist _ _) hs
  · intro hlen h
    have hperm := List.perm_insertionSort hitDescOrder (db.hits.filter (hitInWindow k ep))
    have hlen2 : (List.insertionSort hitDescOrder (db.hits.filter (hitInWindow k ep))).length ≤ 500 := by
      rw [hperm.length_eq]
      exact hlen
    simp only [apiHits]
    rw [List.take_of_length_le hlen2, hperm.mem_iff, List.mem_filter, hitInWindow_iff]

/-- Witness for C5: with day index 10 the bounds are `[838800000,
925199999)`; a hit at offset-local `23:59:59.500` (epoch `925199500`) is
returned, one at `00:00:00.500` of the next day (epoch `925200500`) is
not. -/
theorem apiHits_window_membership_witness :
    ((⟨[{ id := 1, endpoint := "a", received_at := 925199500, response_ms := 0, body_length := 0 }, { id := 2, endpoint := "a", received_at := 925200500, response_ms := 0, body_length := 0 }], [], [], 3⟩ : Db).hits.filter (hitInWindow 10 none)).length ≤ 500 ∧
    ({ id := 1, endpoint := "a", received_at := 925199500, response_ms := 0, body_length := 0 } : Hit) ∈
      apiHits 10 none ⟨[{ id := 1, endpoint := "a", received_at := 925199500, response_ms := 0, body_length := 0 }, { id := 2, endpoint := "a", received_at := 925200500, response_ms := 0, body_length := 0 }], [], [], 3⟩ ∧
    ({ id := 2, endpoint := "a", received_at := 925200500, response_ms := 0, body_length := 0 } : Hit) ∉
      apiHits 10 none ⟨[{ id := 1, endpoint := "a", received_at := 925199500, response_ms := 0, body_length := 0 }, { id := 2, endpoint := "a", received_at := 925200500, response_ms := 0, body_length := 0 }], [], [], 3⟩ := by
  have T := apiHits_window_membership 10 none
    ⟨[{ id := 1, endpoint := "a", received_at := 925199500, response_ms := 0, body_length := 0 }, { id := 2, endpoint := "a", received_at := 925200500, response_ms := 0, body_length := 0 }], [], [], 3⟩
  refine ⟨by decide, ?_, ?_⟩
  · exact (T.2.2 (by decide) _).mpr
      ⟨by decide, by decide, by decide, fun e he => nomatch he⟩
  · intro hmem
    have hw := ((T.2.2 (by decide) _).mp hmem).2.2.1
    exact absurd hw (by decide)

/-- Counterexample to C5 as stated: a hit at exactly the offset-local
instant `23:59:59.999` of the requested day — inside the claim's
inclusive window — is not returned, because the query compares with
strict `lt` against that instant. -/
theorem apiHits_inclusive_window_cex :
    dayFromMs 10 ≤ (925199999 : Int) ∧ (925199999 : Int) ≤ dayToMs 10 ∧
    ({ id := 1, endpoint := "a", received_at := 925199999, response_ms := 0, body_length := 0 } : Hit) ∈
      (⟨[{ id := 1, endpoint := "a", received_at := 925199999, response_ms := 0, body_length := 0 }], [], [], 2⟩ : Db).hits ∧
    ({ id := 1, endpoint := "a", received_at := 925199999, response_ms := 0, body_length := 0 } : Hit) ∉
      apiHits 10 none ⟨[{ id := 1, endpoint := "a", received_at := 925199999, response_ms := 0, body_length := 0 }], [], [], 2⟩ := by
  decide


/-- Character-list length of the UTF-8 byte encoding of a constructed string. -/
theorem utf8_mk_length (l : List Char) :
    (utf8 (String.mk l)).length = (l.map (fun c => (utf8Char c).length)).sum := by
  induction l with
  | nil => rfl
  | cons c cs ih =>
    show ((utf8Char c) ++ cs.foldr (fun c2 acc => utf8Char c2 ++ acc) []).length = _
    rw [List.length_append, List.map_cons, List.sum_cons]
    have ih2 : (cs.foldr (fun c2 acc => utf8Char c2 ++ acc) []).length =
        (cs.map (fun c2 => (utf8Char c2).length)).sum := ih
    omega

/-- With no secret and no rule, the raw receive handler appends exactly
one hit row built from the request. -/
theorem handleRaw_none_no_rule_hits (id token body : String) (t : Int) (ms : Nat)
    (hdrs : ReqHeaders) (db : Db) (hr : getForwardRule db id = none) :
    (handleRawWebhook none id token body t ms hdrs db).db.hits =
      db.hits ++ [{ id := db.nextHitId, endpoint := id, suffix := none, received_at := t, response_ms := ms, body_length := body.length, body := some (String.mk (body.data.take 4096)) }] := by
  simp [handleRawWebhook, hr, recordHit]

/-- C7 (amended): a hit persisted by the raw receive route stores the
body truncated to 4096 characters (UTF-16 code units, the unit of the
JavaScript `slice`), and `body_length` is the character count of the
full untruncated body. -/
theorem rawWebhook_stores_char_truncation (a : Option String) (id token body : String)
    (t : Int) (ms : Nat) (hdrs : ReqHeaders) (db : Db) (i : Nat)
    (hi : (handleRawWebhook a id token body t ms hdrs db).hitId = some i) :
    (handleRawWebhook a id token body t ms hdrs db).db.hits =
      db.hits ++ [{ id := i, endpoint := id, suffix := none, received_at := t, response_ms := ms, body_length := body.length, body := some (String.mk (body.data.take 4096)) }] := by
  cases hA : (match a with
      | some secret => !(verifyWebhookToken id token secret)
      | none => false) with
  | true => simp [handleRawWebhook, hA] at hi
  | false =>
    cases hr : getForwardRule db id with
    | none =>
      simp [handleRawWebhook, hA, hr, recordHit] at hi ⊢
      simp [hi]
    | some r =>
      cases hp : r.persist with
      | false => simp [handleRawWebhook, hA, hr, hp] at hi
      | true =>
        simp [handleRawWebhook, hA, hr, hp, recordHit] at hi ⊢
        simp [hi]

/-- Witness for C7: a five-character body is stored whole with
`body_length` 5. -/
theorem rawWebhook_stores_char_truncation_witness :
    (handleRawWebhook none "e" "tok" "hello" 3 2 ⟨none, none⟩ ⟨[], [], [], 1⟩).db.hits =
      [{ id := 1, endpoint := "e", suffix := none, received_at := 3, response_ms := 2, body_length := 5, body := some "hello" }] := by
  rw [rawWebhook_stores_char_truncation none "e" "tok" "hello" 3 2 ⟨none, none⟩
    ⟨[], [], [], 1⟩ 1 rfl]
  decide

/-- Counterexample to C7 as stated: a body of 1366 three-byte euro signs
is 4098 bytes but 1366 characters, so the route stores it unshortened,
and the stored bytes are not the received body truncated to 4096 bytes. -/
theorem rawWebhook_byte_truncation_cex :
    (handleRawWebhook none "e" "tok" (String.mk (List.replicate 1366 '€')) 0 0 ⟨none, none⟩ ⟨[], [], [], 1⟩).db.hits =
      [{ id := 1, endpoint := "e", suffix := none, received_at := 0, response_ms := 0, body_length := 1366, body := some (String.mk (List.replicate 1366 '€')) }] ∧
    utf8 (String.mk (List.replicate 1366 '€')) ≠ (utf8 (String.mk (List.replicate 1366 '€'))).take 4096 := by
  have h3 : (utf8Char '€').length = 3 := rfl
  have hlen : (utf8 (String.mk (List.replicate 1366 '€'))).length = 4098 := by
    rw [utf8_mk_length, List.map_replicate, List.sum_replicate, h3, smul_eq_mul]
  have hdt : (String.mk (List.replicate 1366 '€')).data.take 4096 = List.replicate 1366 '€' := by
    show (List.replicate 1366 '€').take 4096 = List.replicate 1366 '€'
    exact List.take_of_length_le (by rw [List.length_replicate]; norm_num)
  constructor
  · have hh := handleRaw_none_no_rule_hits "e" "tok" (String.mk (List.replicate 1366 '€'))
      0 0 ⟨none, none⟩ ⟨[], [], [], 1⟩ rfl
    have hbl : (String.mk (List.replicate 1366 '€')).length = 1366 := by
      show (List.replicate 1366 '€').length = 1366
      rw [List.length_replicate]
    rw [hh, hdt, hbl]
    rfl
  · intro hEq
    have hL := congrArg List.length hEq
    rw [List.length_take, hlen] at hL
    rw [show min 4096 4098 = 4096 from rfl] at hL
    exact absurd hL (by norm_num)
